import Mathlib

/-!
Shallow embedding of the property-data scraping pipeline in
src/scraping.py (functions get_roll_nums, get_web_uid, get_bca_data),
together with theorems settling the specification claims about it.

External collaborators (the HTTP client, the HTML parser, the GIS
service) are modelled as oracle inputs: an HTTP exchange is an
HttpResponse value, a fetched-and-parsed HTML document is a Page value,
and the GIS feature layer is a list of attribute rows.  The pure logic
of the three functions (status checks, string surgery, id filtering,
text extraction, dictionary accumulation, dataframe construction,
column coercion) is translated directly from the source.
-/

/-! ### HTTP responses and error values -/

/-- An HTTP exchange as observed by the script: the status code and the
decoded body (for the lookup endpoint the body is the JSON-decoded
string; for the page fetch it is the HTML text). -/
structure HttpResponse where
  status : Nat
  body : String
  deriving DecidableEq

/-- The exceptions the script can raise on a response.  requests raises
an HTTPError from raise_for_status for 4xx/5xx codes; every other
non-200 code falls through to the explicit ValueError (lines 149-151 and
195-197 of src/scraping.py).  Coercion errors in get_roll_nums use the
valueError constructor with the pandas message. -/
inductive ScrapeError where
  | httpError (status : Nat) : ScrapeError
  | valueError (msg : String) : ScrapeError
  deriving DecidableEq

/-- The error path shared by get_web_uid and the page fetch: on a
non-200 status, r.raise_for_status() raises for 4xx/5xx, otherwise the
script raises its own ValueError (the message keeps the typo of the
source). -/
def raise_non_200 (status : Nat) : ScrapeError :=
  if 400 ≤ status ∧ status < 600 then .httpError status
  else .valueError "Successful reponse. Unknown status code."

/-! ### Python str.replace, modelled on character lists

Python str.replace(old, new) replaces every non-overlapping occurrence
of old, scanning left to right.  The recursion is fuelled by the length
of the scanned list so that it stays structural (each step consumes at
least one character when the pattern is nonempty, which it always is
here: the pattern used by the source is "ok-"). -/

def replaceAllAux (pat rep : List Char) : Nat → List Char → List Char
  | _, [] => []
  | 0, c :: cs => c :: cs
  | fuel + 1, c :: cs =>
    if pat.isPrefixOf (c :: cs) then
      rep ++ replaceAllAux pat rep fuel ((c :: cs).drop pat.length)
    else
      c :: replaceAllAux pat rep fuel cs

/-- Python s.replace(pat, rep): replace every non-overlapping occurrence
of pat in s, leftmost first. -/
def str_replace (s pat rep : String) : String :=
  ⟨replaceAllAux pat.data rep.data s.data.length s.data⟩

/-- Decides whether pat occurs as a contiguous substring of the list. -/
def hasSub (pat : List Char) : List Char → Bool
  | [] => pat.isPrefixOf []
  | c :: cs => pat.isPrefixOf (c :: cs) || hasSub pat cs

/-! ### get_web_uid (src/scraping.py lines 116-154)

The network call is an oracle: the function receives the response of
GET base_url{jur}?roll={roll}.  On status 200 the source computes
r.json().replace("ok-", "") — the JSON decoding of the body is the
collaborator concern, so the model receives the decoded string body and
applies the replace. -/

def get_web_uid (r : HttpResponse) : Except ScrapeError String :=
  if r.status = 200 then .ok (str_replace r.body "ok-" "")
  else .error (raise_non_200 r.status)

/-- Modelled from the spec claim wording for handle stripping (claim
C2): remove only a leading occurrence of the three-character marker
from the body, leaving everything after it unchanged.  This is the
comparison definition for the refinement check against str_replace. -/
def specStripLeadingOk (b : String) : String :=
  if ("ok-".data).isPrefixOf b.data then ⟨b.data.drop 3⟩ else b

/-- The page fetch inside get_bca_data (src/scraping.py lines 188-197):
return the HTML text iff the status is 200, with the same error path as
get_web_uid. -/
def fetch_html (r : HttpResponse) : Except ScrapeError String :=
  if r.status = 200 then .ok r.body
  else .error (raise_non_200 r.status)

/-! ### HTML documents

A parsed page is a list of elements carrying an id attribute and their
direct text-node children, in document order.  Elements without an id
attribute never participate in the scraping logic (the source only ever
selects //@id and //*[@id=...]), so they are not modelled.  The HTML
standard requires id values to be unique within a document, which the
ids_nodup field records. -/

structure Element where
  id : String
  texts : List String
  deriving DecidableEq

structure Page where
  elems : List Element
  ids_nodup : (elems.map Element.id).Nodup

/-- The result of xpath_select(sel, "//@id"): every id attribute of the
document, in document order (src/scraping.py line 204). -/
def pageIds (p : Page) : List String := p.elems.map Element.id

/-- The result of xpath_select(sel, "//*[@id='name']/text()"): the
direct text nodes of every element whose id equals name, in document
order (src/scraping.py line 215). -/
def textsOf (p : Page) (idName : String) : List String :=
  (p.elems.filter (fun e => e.id == idName)).flatMap Element.texts

/-- Python str.strip() on a character list: drop whitespace from both
ends. -/
def pyStrip (l : List Char) : List Char :=
  ((l.dropWhile Char.isWhitespace).reverse.dropWhile Char.isWhitespace).reverse

/-- Python t.strip() for strings. -/
def strip_str (t : String) : String := ⟨pyStrip t.data⟩

/-- The per-id extraction of src/scraping.py lines 215-224: select the
text nodes of the element with the given id; an empty selection yields
the null marker (np.nan, modelled as none); otherwise the first text
node is stripped, and an empty result after stripping also yields the
null marker. -/
def scrape_field (p : Page) (idName : String) : Option String :=
  match textsOf p idName with
  | [] => none
  | t :: _ =>
    let v := strip_str t
    if v = "" then none else some v

/-- The dynamic_ids list of src/scraping.py lines 175-182. -/
def dynamic_ids : List String :=
  ["lblTotalAssessedLand", "lblTotalAssessedBuilding", "lblPreviousAssessedLand",
   "lblPreviousAssessedBuilding", "property-comments", "lblComments"]

/-- The test re.search("^lbl|^manufacture|^legal|^property-comments", x)
of src/scraping.py lines 203-205: the regex is an alternation of four
anchored alternatives, so it matches exactly when x starts with one of
the four literals. -/
def ids_regex_match (x : String) : Bool :=
  ("lbl".data).isPrefixOf x.data || ("manufacture".data).isPrefixOf x.data ||
  ("legal".data).isPrefixOf x.data || ("property-comments".data).isPrefixOf x.data

/-- The filter of src/scraping.py line 205 applied to the enumerated id
list. -/
def filter_ids (l : List String) : List String := l.filter ids_regex_match

/-- Modelled from the spec claim wording for the id filter (claim C3):
keep an id iff it starts with lbl, manufacture or legal, or is exactly
property-comments.  Comparison definition for the refinement check
against ids_regex_match. -/
def specIdKeep (x : String) : Bool :=
  ("lbl".data).isPrefixOf x.data || ("manufacture".data).isPrefixOf x.data ||
  ("legal".data).isPrefixOf x.data || (x == "property-comments")

/-! ### The accumulating dictionary of get_bca_data

dict_data is a defaultdict(list); the per-id columns are lists appended
to, while the keys jur and roll are plain assignments overwritten on
every loop iteration (src/scraping.py lines 207-209).  The column part
is an insertion-ordered association list. -/

abbrev Cols := List (String × List (Option String))

/-- dict_data[k].append(v) on a defaultdict(list): append to the entry
of k, creating it at the end if absent. -/
def dictAppend (cs : Cols) (k : String) (v : Option String) : Cols :=
  match cs with
  | [] => [(k, [v])]
  | (k₀, vs) :: rest =>
    if k₀ == k then (k₀, vs ++ [v]) :: rest else (k₀, vs) :: dictAppend rest k v

/-- The list stored under key k (empty if the key is absent). -/
def colGet (cs : Cols) (k : String) : List (Option String) :=
  (cs.lookup k).getD []

/-- Number of values accumulated under key k. -/
def colLen (cs : Cols) (k : String) : Nat := (colGet cs k).length

/-- The state of dict_data during the loop of get_bca_data: the two
scalar entries (overwritten each iteration) and the list-valued
columns. -/
structure ScrapeState where
  jurLast : Option Nat
  rollLast : Option String
  cols : Cols

def initState : ScrapeState := ⟨none, none, []⟩

/-- The oracle for one loop iteration: the lookup response, the page
fetch response, and the parse of the fetched HTML body. -/
structure ItemWorld where
  lookup : HttpResponse
  fetchResp : HttpResponse
  page : Page

/-- The filtered id list of one page (src/scraping.py lines 203-205). -/
def ids_of (p : Page) : List String := filter_ids (pageIds p)

/-- The column updates of one loop iteration (src/scraping.py lines
211-229): one append per matched id, then one null append for every
dynamic id that was not among the matched ids. -/
def cols_after (p : Page) (cs : Cols) : Cols :=
  dynamic_ids.foldl
    (fun acc idName => if (ids_of p).contains idName then acc else dictAppend acc idName none)
    ((ids_of p).foldl (fun acc idName => dictAppend acc idName (scrape_field p idName)) cs)

/-- One iteration of the main loop of get_bca_data (src/scraping.py
lines 169-237): resolve the web uid, fetch the page, then update
dict_data.  Either HTTP failure propagates as an exception; the sleep
and the progress prints are side effects outside the functional
model. -/
def scrape_item (st : ScrapeState) (jur : Nat) (roll : String) (w : ItemWorld) :
    Except ScrapeError ScrapeState :=
  match get_web_uid w.lookup with
  | .error e => .error e
  | .ok _uid =>
    match fetch_html w.fetchResp with
    | .error e => .error e
    | .ok _html => .ok ⟨some jur, some roll, cols_after w.page st.cols⟩

/-- One item of the iteration zip(jurs, rolls), paired with its HTTP
oracle. -/
def step_item (st : ScrapeState) (it : (Nat × String) × ItemWorld) :
    Except ScrapeError ScrapeState :=
  scrape_item st it.1.1 it.1.2 it.2

/-- The main loop: sequential, aborting at the first exception. -/
def run_items : ScrapeState → List ((Nat × String) × ItemWorld) → Except ScrapeError ScrapeState
  | st, [] => .ok st
  | st, it :: rest =>
    match step_item st it with
    | .error e => .error e
    | .ok st₂ => run_items st₂ rest

/-- The output table: pd.DataFrame(dict_data).  The scalar jur and roll
entries become columns broadcast over the common column length. -/
structure Table where
  jurCol : List Nat
  rollCol : List String
  cols : Cols

/-- pd.DataFrame(dict_data) (src/scraping.py line 240): all list-valued
entries must share one length n, scalars broadcast to n; unequal list
lengths raise ValueError, and a dictionary holding only scalars also
raises. -/
def to_dataframe (st : ScrapeState) : Except ScrapeError Table :=
  match st.cols with
  | [] =>
    if st.jurLast = none ∧ st.rollLast = none then .ok ⟨[], [], []⟩
    else .error (.valueError "If using all scalar values, you must pass an index")
  | (k, v) :: rest =>
    if rest.all (fun q => q.2.length == v.length) then
      .ok ⟨(match st.jurLast with | some j => List.replicate v.length j | none => []),
           (match st.rollLast with | some r₀ => List.replicate v.length r₀ | none => []),
           (k, v) :: rest⟩
    else .error (.valueError "All arrays must be of the same length")

/-- get_bca_data (src/scraping.py lines 156-243): iterate over
zip(jurs, rolls) against the per-item HTTP oracle, then build the
dataframe from the accumulated dictionary. -/
def get_bca_data (jurs : List Nat) (rolls : List String) (world : List ItemWorld) :
    Except ScrapeError Table :=
  match run_items initState ((jurs.zip rolls).zip world) with
  | .error e => .error e
  | .ok st => to_dataframe st

/-! ### get_roll_nums (src/scraping.py lines 42-114)

The feature-service query is the oracle: the model receives the
attribute rows.  Only the columns the logic touches are modelled
(AFP_OID for the filter, ROLL_NUM, and the two float value columns);
the dropped columns play no role in any claim.  A float64 cell is
either NaN or a rational value. -/

inductive FloatVal where
  | nan : FloatVal
  | val (q : ℚ) : FloatVal
  deriving DecidableEq

/-- One astype("Int32") cell conversion as pandas performs it for float
input: NaN becomes the null marker; a value equal to an integer that
fits in signed 32 bits becomes that integer; anything else makes the
round-trip comparison of pandas safe_cast fail, raising TypeError. -/
def astypeInt32 : FloatVal → Except String (Option Int)
  | .nan => .ok none
  | .val q =>
    if q.den = 1 ∧ -(2 ^ 31) ≤ q.num ∧ q.num < 2 ^ 31 then .ok (some q.num)
    else .error "cannot safely cast non-equivalent float64 to int32"

/-- Column-wise astype("Int32") (src/scraping.py lines 101-102):
convert every cell, aborting on the first failure. -/
def astype_col : List FloatVal → Except String (List (Option Int))
  | [] => .ok []
  | v :: vs =>
    match astypeInt32 v with
    | .error e => .error e
    | .ok x =>
      match astype_col vs with
      | .error e => .error e
      | .ok xs => .ok (x :: xs)

structure GisRow where
  afp_oid : String
  roll_num : String
  impr_value : FloatVal
  land_value : FloatVal
  deriving DecidableEq

structure RollRecord where
  jur : Nat
  roll_num : String
  impr_value : Option Int
  land_value : Option Int
  deriving DecidableEq

/-- The subset line df[df["AFP_OID"].str.startswith(f"{jur}")]
(src/scraping.py line 95): keep a row iff the decimal string form of
jur is a prefix of the AFP_OID string. -/
def jur_filter (jur : Nat) (rows : List GisRow) : List GisRow :=
  rows.filter (fun r => ((toString jur).data).isPrefixOf r.afp_oid.data)

/-- Positional assembly of the output rows after the column coercions:
the jur constant column is inserted in front of every row. -/
def mk_records (jur : Nat) : List GisRow → List (Option Int) → List (Option Int) → List RollRecord
  | r :: rs, i :: is, l :: ls => ⟨jur, r.roll_num, i, l⟩ :: mk_records jur rs is ls
  | _, _, _ => []

/-- get_roll_nums: filter to the jurisdiction, coerce the two value
columns to nullable Int32, attach the constant jur column.  Dropping
the unused columns and resetting the index are identities on this
model. -/
def get_roll_nums (jur : Nat) (rows : List GisRow) : Except String (List RollRecord) :=
  match astype_col ((jur_filter jur rows).map GisRow.impr_value) with
  | .error e => .error e
  | .ok imprs =>
    match astype_col ((jur_filter jur rows).map GisRow.land_value) with
    | .error e => .error e
    | .ok lands => .ok (mk_records jur (jur_filter jur rows) imprs lands)

/-- A cell the Int32 coercion accepts: NaN, or a whole number in the
signed 32-bit range. -/
def coercible : FloatVal → Bool
  | .nan => true
  | .val q => decide (q.den = 1 ∧ -(2 ^ 31) ≤ q.num ∧ q.num < 2 ^ 31)

/-! ### Lemmas about the replace model -/

/-- When the pattern occurs nowhere in the scanned list, replacement is
the identity, for every fuel value. -/
lemma replaceAllAux_of_no_sub (pat rep : List Char) :
    ∀ (fuel : Nat) (s : List Char), hasSub pat s = false → replaceAllAux pat rep fuel s = s := by
  intro fuel
  induction fuel with
  | zero => intro s _hs; cases s <;> rfl
  | succ n ih =>
    intro s hs
    cases s with
    | nil => rfl
    | cons c cs =>
      have hb : (pat.isPrefixOf (c :: cs) || hasSub pat cs) = false := hs
      rw [Bool.or_eq_false_iff] at hb
      simp only [replaceAllAux, hb.1, Bool.false_eq_true, if_false]
      rw [ih cs hb.2]

/-- Stripping the leading marker: when the body is the marker followed
by a remainder containing no further occurrence, the replacement keeps
exactly the remainder. -/
lemma replaceAllAux_strip_marker (l : List Char) (h : hasSub ['o', 'k', '-'] l = false) :
    replaceAllAux ['o', 'k', '-'] [] (l.length + 1 + 1 + 1) ('o' :: 'k' :: '-' :: l) = l := by
  have hpre : List.isPrefixOf ['o', 'k', '-'] ('o' :: 'k' :: '-' :: l) = true := by
    simp [ List.isPrefixOf]
  show (if List.isPrefixOf ['o', 'k', '-'] ('o' :: 'k' :: '-' :: l) then
          [] ++ replaceAllAux ['o', 'k', '-'] [] (l.length + 1 + 1)
            (('o' :: 'k' :: '-' :: l).drop (['o', 'k', '-'].length))
        else
          'o' :: replaceAllAux ['o', 'k', '-'] [] (l.length + 1 + 1) ('k' :: '-' :: l)) = l
  rw [hpre]
  simp only [if_true, List.nil_append, List.length_cons, List.drop_succ_cons, List.drop_zero]
  exact replaceAllAux_of_no_sub _ _ _ _ h

/-! ### Claim C2 -/

/-- Claim C2 counterexample: the claim states that resolution removes
only the leading three-character marker.  On the 200-response body
"ok-ABok-CD" the code removes every occurrence and yields "ABCD",
whereas removing only the leading marker yields "ABok-CD". -/
theorem C2_replace_not_leading_strip :
    get_web_uid ⟨200, "ok-ABok-CD"⟩ = .ok "ABCD" ∧
    specStripLeadingOk "ok-ABok-CD" = "ABok-CD" ∧
    ("ABCD" : String) ≠ "ABok-CD" := by
  refine ⟨rfl, rfl, by decide⟩

/-- Claim C2 amended: on a 200 response, get_web_uid removes every
occurrence of the substring "ok-" from the body.  In particular, when
the body consists of the marker followed by a handle containing no
further occurrence of "ok-", the result is exactly that handle, with
the characters after the marker unchanged. -/
theorem get_web_uid_strips_marker (h : String) (hns : hasSub "ok-".data h.data = false) :
    get_web_uid ⟨200, "ok-" ++ h⟩ = .ok h := by
  unfold get_web_uid
  rw [if_pos rfl]
  unfold str_replace
  have hd : ("ok-" ++ h).data = 'o' :: 'k' :: '-' :: h.data := rfl
  rw [hd]
  rw [show ('o' :: 'k' :: '-' :: h.data).length = h.data.length + 1 + 1 + 1 from rfl]
  rw [replaceAllAux_strip_marker h.data hns]

/-- Witness for the amended claim C2 at the concrete body of the spec
example. -/
theorem get_web_uid_strips_marker_witness : get_web_uid ⟨200, "ok-ABC123"⟩ = .ok "ABC123" := by
  have hp := get_web_uid_strips_marker "ABC123" (by decide)
  have he : ("ok-" ++ "ABC123" : String) = "ok-ABC123" := rfl
  rw [he] at hp
  exact hp

/-! ### Claim C3 -/

/-- Claim C3 counterexample: the claim requires an id to be retained
only if it starts with lbl, manufacture or legal, or is exactly
property-comments.  The id "property-comments2" satisfies none of
these, yet the regex of the code retains it (the fourth alternative is
anchored only on the left, so it is a prefix test). -/
theorem C3_property_comments_prefix_retained :
    filter_ids ["property-comments2"] = ["property-comments2"] ∧
    specIdKeep "property-comments2" = false := by
  refine ⟨rfl, by decide⟩

/-- Claim C3 amended: the field scraper retains an id from the
enumerated ids if and only if it starts with "lbl", or starts with
"manufacture", or starts with "legal", or starts with
"property-comments" (case-sensitive, anchored at the start of the
id). -/
theorem filter_ids_retained_iff (l : List String) (x : String) :
    x ∈ filter_ids l ↔
      x ∈ l ∧ ("lbl".data <+: x.data ∨ "manufacture".data <+: x.data ∨
        "legal".data <+: x.data ∨ "property-comments".data <+: x.data) := by
  unfold filter_ids
  rw [List.mem_filter]
  unfold ids_regex_match
  simp [ List.isPrefixOf_iff_prefix, or_assoc]

/-- Witness for the amended claim C3: the four kinds of retained ids
and one rejected id, on a concrete enumeration. -/
theorem filter_ids_retained_iff_witness :
    "lblLandValue" ∈ filter_ids ["lblLandValue", "footer", "legalDescription"] ∧
    "footer" ∉ filter_ids ["lblLandValue", "footer", "legalDescription"] := by
  constructor
  · exact (filter_ids_retained_iff _ "lblLandValue").mpr (by constructor <;> decide)
  · intro hmem
    have hc := (filter_ids_retained_iff ["lblLandValue", "footer", "legalDescription"] "footer").mp hmem
    revert hc
    decide

/-! ### Claim C6 -/

/-- Claim C6: web handle resolution and the page fetch return a value
if and only if the status is exactly 200, and raise an exception if and
only if the status is not 200 (any non-200 status, error or not). -/
theorem resolution_and_fetch_require_200 (r : HttpResponse) :
    ((∃ v, get_web_uid r = .ok v) ↔ r.status = 200) ∧
    ((∃ v, fetch_html r = .ok v) ↔ r.status = 200) ∧
    ((∃ e, get_web_uid r = .error e) ↔ r.status ≠ 200) ∧
    ((∃ e, fetch_html r = .error e) ↔ r.status ≠ 200) := by
  unfold get_web_uid fetch_html
  by_cases hs : r.status = 200 <;> simp [hs]

/-- Witness for claim C6 at concrete statuses, including the non-error
status 204. -/
theorem resolution_and_fetch_require_200_witness :
    (∃ v, get_web_uid ⟨200, "ok-x"⟩ = .ok v) ∧
    (∃ e, get_web_uid ⟨204, ""⟩ = .error e) ∧
    (∃ e, fetch_html ⟨404, ""⟩ = .error e) := by
  refine ⟨(resolution_and_fetch_require_200 ⟨200, "ok-x"⟩).1.mpr rfl,
    (resolution_and_fetch_require_200 ⟨204, ""⟩).2.2.1.mpr (by decide),
    (resolution_and_fetch_require_200 ⟨404, ""⟩).2.2.2.mpr (by decide)⟩

/-! ### Lemmas about the Int32 coercion -/

/-- One cell converts successfully exactly when it is coercible. -/
lemma astypeInt32_ok_iff (v : FloatVal) :
    (∃ x, astypeInt32 v = .ok x) ↔ coercible v = true := by
  cases v with
  | nan => simp [astypeInt32, coercible]
  | val q =>
    simp only [astypeInt32, coercible, decide_eq_true_eq]
    by_cases hc : q.den = 1 ∧ -(2 ^ 31) ≤ q.num ∧ q.num < 2 ^ 31
    · rw [if_pos hc]
      exact iff_of_true ⟨some q.num, rfl⟩ hc
    · rw [if_neg hc]
      refine iff_of_false ?_ hc
      rintro ⟨x, hx⟩
      exact absurd hx (by simp)

/-- A column converts successfully exactly when every cell is
coercible. -/
lemma astype_col_ok_iff (vs : List FloatVal) :
    (∃ xs, astype_col vs = .ok xs) ↔ ∀ v ∈ vs, coercible v = true := by
  induction vs with
  | nil => simp [astype_col]
  | cons v vs ih =>
    constructor
    · intro hok
      obtain ⟨xs, h⟩ := hok
      simp only [astype_col] at h
      cases hv : astypeInt32 v with
      | error e => rw [hv] at h; exact absurd h (by simp)
      | ok x =>
        rw [hv] at h
        cases hcol : astype_col vs with
        | error e => rw [hcol] at h; exact absurd h (by simp)
        | ok ys =>
          intro w hw
          rcases List.mem_cons.mp hw with rfl | hw2
          · exact (astypeInt32_ok_iff w).mp ⟨x, hv⟩
          · exact ih.mp ⟨ys, hcol⟩ w hw2
    · intro hall
      obtain ⟨x, hx⟩ := (astypeInt32_ok_iff v).mpr (hall v (List.mem_cons_self v vs))
      obtain ⟨ys, hys⟩ := ih.mpr (fun w hw => hall w (List.mem_cons_of_mem v hw))
      refine ⟨x :: ys, ?_⟩
      simp only [astype_col]
      rw [hx, hys]

/-- astype preserves the column length. -/
lemma astype_col_length : ∀ (vs : List FloatVal) (xs : List (Option Int)),
    astype_col vs = .ok xs → xs.length = vs.length := by
  intro vs
  induction vs with
  | nil =>
    intro xs h
    cases xs with
    | nil => rfl
    | cons x xs => exact absurd h (by simp [astype_col])
  | cons v vs ih =>
    intro xs h
    unfold astype_col at h
    cases hv : astypeInt32 v with
    | error e => rw [hv] at h; exact absurd h (by simp)
    | ok x =>
      rw [hv] at h
      cases hcol : astype_col vs with
      | error e => rw [hcol] at h; exact absurd h (by simp)
      | ok ys =>
        rw [hcol] at h
        cases h
        simp [ih ys hcol]

/-- Positional assembly preserves the roll-number column. -/
lemma mk_records_roll (jur : Nat) : ∀ (rs : List GisRow) (is ls : List (Option Int)),
    is.length = rs.length → ls.length = rs.length →
    (mk_records jur rs is ls).map RollRecord.roll_num = rs.map GisRow.roll_num := by
  intro rs
  induction rs with
  | nil =>
    intro is ls _ _
    cases is <;> cases ls <;> rfl
  | cons r rs ih =>
    intro is ls hi hl
    cases is with
    | nil => exact absurd hi (by simp)
    | cons i is =>
      cases ls with
      | nil => exact absurd hl (by simp)
      | cons l ls =>
        simp only [mk_records, List.map_cons]
        rw [ih is ls (by simpa using hi) (by simpa using hl)]

/-! ### Claim C5 -/

/-- Claim C5: a service row is retained by Identifier Discovery's
subset step if and only if the decimal string form of the jurisdiction
parameter is a prefix of the string form of its composite feature id;
moreover, on success, the output rows of get_roll_nums are exactly the
retained rows in order (witnessed through the roll-number column). -/
theorem jur_filter_retained_iff (jur : Nat) (rows : List GisRow) (r : GisRow) :
    (r ∈ jur_filter jur rows ↔ r ∈ rows ∧ (toString jur).data <+: r.afp_oid.data) ∧
    (∀ recs, get_roll_nums jur rows = .ok recs →
      recs.map RollRecord.roll_num = (jur_filter jur rows).map GisRow.roll_num) := by
  constructor
  · unfold jur_filter
    rw [List.mem_filter]
    simp [ List.isPrefixOf_iff_prefix]
  · intro recs h
    unfold get_roll_nums at h
    cases hi : astype_col ((jur_filter jur rows).map GisRow.impr_value) with
    | error e => rw [hi] at h; exact absurd h (by simp)
    | ok imprs =>
      rw [hi] at h
      cases hl : astype_col ((jur_filter jur rows).map GisRow.land_value) with
      | error e => rw [hl] at h; exact absurd h (by simp)
      | ok lands =>
        rw [hl] at h
        cases h
        exact mk_records_roll jur _ imprs lands
          (by rw [astype_col_length _ _ hi, List.length_map])
          (by rw [astype_col_length _ _ hl, List.length_map])

def gisA : GisRow := ⟨"2260001", "rA", .nan, .nan⟩

def gisB : GisRow := ⟨"2270001", "rB", .nan, .nan⟩

/-- Witness for claim C5 at the concrete feature ids of the spec
example: jurisdiction 226 retains "2260001" and rejects "2270001". -/
theorem jur_filter_retained_iff_witness :
    gisA ∈ jur_filter 226 [gisA, gisB] ∧ gisB ∉ jur_filter 226 [gisA, gisB] := by
  constructor
  · exact (jur_filter_retained_iff 226 [gisA, gisB] gisA).1.mpr ⟨by decide, by decide⟩
  · intro hmem
    have hc := (jur_filter_retained_iff 226 [gisA, gisB] gisB).1.mp hmem
    exact absurd hc.2 (by decide)

/-! ### Claim C9 -/

/-- Claim C9 counterexample: 2147483648 is a whole number (denominator
one), yet the Int32 coercion raises on it instead of producing that
integer, because it does not fit the signed 32-bit range of the Int32
dtype. -/
theorem C9_whole_number_outside_int32_raises :
    (2147483648 : ℚ).den = 1 ∧
    (∃ e, get_roll_nums 226 [⟨"2260001", "r1", .val 2147483648, .val 0⟩] = .error e) := by
  exact ⟨by decide, ⟨"cannot safely cast non-equivalent float64 to int32", rfl⟩⟩

/-- Claim C9 amended: Identifier Discovery succeeds exactly when every
retained value cell is absent (NaN) or a whole number representable in
signed 32 bits; an absent cell becomes the null marker, a representable
whole number becomes that integer, and any other value (a non-whole
number, or a whole number outside the signed 32-bit range) raises an
error that aborts get_roll_nums. -/
theorem coercion_wholeInt32_or_null (jur : Nat) (rows : List GisRow) :
    ((∃ recs, get_roll_nums jur rows = .ok recs) ↔
      ∀ r ∈ jur_filter jur rows, coercible r.impr_value = true ∧ coercible r.land_value = true) ∧
    astypeInt32 .nan = .ok none ∧
    (∀ q : ℚ, q.den = 1 → -(2 ^ 31) ≤ q.num → q.num < 2 ^ 31 →
      astypeInt32 (.val q) = .ok (some q.num)) ∧
    (∀ q : ℚ, ¬(q.den = 1 ∧ -(2 ^ 31) ≤ q.num ∧ q.num < 2 ^ 31) →
      ∃ e, astypeInt32 (.val q) = .error e) := by
  refine ⟨?_, rfl, ?_, ?_⟩
  · constructor
    · intro hok
      obtain ⟨recs, h⟩ := hok
      unfold get_roll_nums at h
      cases hi : astype_col ((jur_filter jur rows).map GisRow.impr_value) with
      | error e => rw [hi] at h; exact absurd h (by simp)
      | ok imprs =>
        rw [hi] at h
        cases hl : astype_col ((jur_filter jur rows).map GisRow.land_value) with
        | error e => rw [hl] at h; exact absurd h (by simp)
        | ok lands =>
          intro r hr
          have h1 := (astype_col_ok_iff _).mp ⟨imprs, hi⟩
          have h2 := (astype_col_ok_iff _).mp ⟨lands, hl⟩
          exact ⟨h1 _ (List.mem_map_of_mem _ hr), h2 _ (List.mem_map_of_mem _ hr)⟩
    · intro hall
      obtain ⟨imprs, hi⟩ := (astype_col_ok_iff ((jur_filter jur rows).map GisRow.impr_value)).mpr
        (by intro v hv; obtain ⟨r, hr, rfl⟩ := List.mem_map.mp hv; exact (hall r hr).1)
      obtain ⟨lands, hl⟩ := (astype_col_ok_iff ((jur_filter jur rows).map GisRow.land_value)).mpr
        (by intro v hv; obtain ⟨r, hr, rfl⟩ := List.mem_map.mp hv; exact (hall r hr).2)
      refine ⟨mk_records jur (jur_filter jur rows) imprs lands, ?_⟩
      unfold get_roll_nums
      rw [hi, hl]
  · intro q h1 h2 h3
    simp only [astypeInt32]
    rw [if_pos ⟨h1, h2, h3⟩]
  · intro q hq
    simp only [astypeInt32]
    rw [if_neg hq]
    exact ⟨_, rfl⟩

/-- Witness for the amended claim C9: a concrete successful discovery
(whole value and NaN) and a concrete whole-number conversion. -/
theorem coercion_wholeInt32_or_null_witness :
    (∃ recs, get_roll_nums 226 [⟨"2260001", "rA", .val 5, .nan⟩] = .ok recs) ∧
    astypeInt32 (.val 7) = .ok (some 7) := by
  refine ⟨(coercion_wholeInt32_or_null 226 _).1.mpr (by decide),
    (coercion_wholeInt32_or_null 0 []).2.2.1 7 (by decide) (by decide) (by decide)⟩

/-! ### Lemmas about the strip model -/

/-- Stripping yields the empty list exactly when every character is
whitespace. -/
lemma pyStrip_eq_nil_iff (l : List Char) :
    pyStrip l = [] ↔ ∀ c ∈ l, c.isWhitespace = true := by
  unfold pyStrip
  constructor
  · intro h c hc
    have h1 : (l.dropWhile Char.isWhitespace).reverse.dropWhile Char.isWhitespace = [] := by
      exact List.reverse_eq_nil_iff.mp h
    have h2 : ∀ x ∈ (l.dropWhile Char.isWhitespace).reverse, x.isWhitespace = true :=
      List.dropWhile_eq_nil_iff.mp h1
    have h3 : ∀ x ∈ l.dropWhile Char.isWhitespace, x.isWhitespace = true := by
      intro x hx
      exact h2 x (List.mem_reverse.mpr hx)
    have hsplit := List.takeWhile_append_dropWhile (p := Char.isWhitespace) (l := l)
    rw [← hsplit] at hc
    rcases List.mem_append.mp hc with htk | hdr
    · exact List.mem_takeWhile_imp htk
    · exact h3 c hdr
  · intro h
    have h1 : l.dropWhile Char.isWhitespace = [] := List.dropWhile_eq_nil_iff.mpr h
    rw [h1]
    rfl

/-- The stripped text is a contiguous substring of the original. -/
lemma pyStrip_infix (l : List Char) : pyStrip l <:+: l := by
  unfold pyStrip
  have h1 : l.dropWhile Char.isWhitespace <:+ l := List.dropWhile_suffix _
  have h2 : (l.dropWhile Char.isWhitespace).reverse.dropWhile Char.isWhitespace <:+
      (l.dropWhile Char.isWhitespace).reverse := List.dropWhile_suffix _
  have h3 : ((l.dropWhile Char.isWhitespace).reverse.dropWhile Char.isWhitespace).reverse <+:
      (l.dropWhile Char.isWhitespace).reverse.reverse := List.reverse_prefix.mpr h2
  rw [List.reverse_reverse] at h3
  exact h3.isInfix.trans h1.isInfix

/-- Bridge between string emptiness of the stripped value and the
all-whitespace condition. -/
lemma strip_str_eq_empty_iff (t : String) :
    strip_str t = "" ↔ ∀ c ∈ t.data, c.isWhitespace = true := by
  unfold strip_str
  rw [String.ext_iff]
  exact pyStrip_eq_nil_iff t.data

/-! ### Claim C8 -/

/-- Claim C8: for a field id on a page, an empty text selection (absent
element or element without text nodes), a first text node that is the
empty string, and a first text node that is whitespace-only all record
the same null marker; any other first text node is recorded stripped of
surrounding whitespace (the recorded value is a nonempty contiguous
substring of the text node). -/
theorem scrape_field_null_normalization (p : Page) (idName : String) :
    (textsOf p idName = [] → scrape_field p idName = none) ∧
    (∀ t rest, textsOf p idName = t :: rest →
      ((∀ c ∈ t.data, c.isWhitespace = true) → scrape_field p idName = none) ∧
      ((∃ c ∈ t.data, c.isWhitespace = false) →
        scrape_field p idName = some (strip_str t) ∧ strip_str t ≠ "" ∧
          (strip_str t).data <:+: t.data)) := by
  constructor
  · intro h
    simp only [scrape_field, h]
  · intro t rest h
    constructor
    · intro hws
      have hempty : strip_str t = "" := (strip_str_eq_empty_iff t).mpr hws
      simp [scrape_field, h, hempty]
    · intro hnws
      have hne : strip_str t ≠ "" := by
        intro hempty
        obtain ⟨c, hc, hcf⟩ := hnws
        have := (strip_str_eq_empty_iff t).mp hempty c hc
        rw [this] at hcf
        exact absurd hcf (by simp)
      refine ⟨?_, hne, ?_⟩
      · simp only [scrape_field, h, if_neg hne]
      · exact pyStrip_infix t.data

def pageC8 : Page :=
  ⟨[⟨"lblA", ["  x "]⟩, ⟨"lblB", ["   "]⟩], by decide⟩

/-- Witness for claim C8: on a concrete page, a whitespace-only text
node records the null marker and a padded text node records its trimmed
form. -/
theorem scrape_field_null_normalization_witness :
    scrape_field pageC8 "lblB" = none ∧ scrape_field pageC8 "lblA" = some "x" := by
  have hB := ((scrape_field_null_normalization pageC8 "lblB").2 "   " [] rfl).1 (by decide)
  have hA := ((scrape_field_null_normalization pageC8 "lblA").2 "  x " [] rfl).2
    ⟨'x', by decide, by decide⟩
  refine ⟨hB, ?_⟩
  rw [hA.1]
  rfl

/-! ### Lemmas about the accumulating dictionary -/

lemma colGet_dictAppend_self (cs : Cols) (k : String) (v : Option String) :
    colGet (dictAppend cs k v) k = colGet cs k ++ [v] := by
  induction cs with
  | nil => simp [dictAppend, colGet, List.lookup]
  | cons hd tl ih =>
    obtain ⟨k₀, vs⟩ := hd
    by_cases hk : k₀ = k
    · subst hk
      simp [dictAppend, colGet, List.lookup]
    · have hb1 : (k₀ == k) = false := by simp [hk]
      have hb2 : (k == k₀) = false := by simp [Ne.symm hk]
      simp only [dictAppend, colGet, List.lookup, hb1, hb2, Bool.false_eq_true, if_false]
      exact ih

lemma colGet_dictAppend_ne (cs : Cols) (k : String) (v : Option String) (k₂ : String)
    (h : k₂ ≠ k) : colGet (dictAppend cs k v) k₂ = colGet cs k₂ := by
  induction cs with
  | nil =>
    have hb : (k₂ == k) = false := by simp [h]
    simp [dictAppend, colGet, List.lookup, hb]
  | cons hd tl ih =>
    obtain ⟨k₀, vs⟩ := hd
    by_cases hk : k₀ = k
    · subst hk
      have hb : (k₂ == k₀) = false := by simp [h]
      simp [dictAppend, colGet, List.lookup, hb]
    · have hb1 : (k₀ == k) = false := by simp [hk]
      by_cases hk2 : k₂ = k₀
      · subst hk2
        simp [dictAppend, colGet, List.lookup, hb1]
      · have hb2 : (k₂ == k₀) = false := by simp [hk2]
        simp only [dictAppend, colGet, List.lookup, hb1, hb2, Bool.false_eq_true, if_false]
        exact ih

/-- Folding appends over a list of keys: the column of k receives
exactly the values of the occurrences of k, in order. -/
lemma colGet_foldl_dictAppend (f : String → Option String) (l : List String) :
    ∀ (cs : Cols) (k : String),
      colGet (l.foldl (fun acc i => dictAppend acc i (f i)) cs) k =
        colGet cs k ++ (l.filter (fun i => i == k)).map f := by
  induction l with
  | nil => intro cs k; simp
  | cons i l ih =>
    intro cs k
    simp only [List.foldl_cons]
    rw [ih]
    by_cases hik : i = k
    · subst hik
      rw [colGet_dictAppend_self]
      simp [List.filter_cons]
    · rw [colGet_dictAppend_ne cs i (f i) k (Ne.symm hik)]
      have hb : (i == k) = false := by simp [hik]
      simp [List.filter_cons, hb]

/-- On a duplicate-free key list the occurrence filter is a singleton
or empty. -/
lemma filter_beq_of_nodup (l : List String) (hl : l.Nodup) (k : String) :
    l.filter (fun i => i == k) = if k ∈ l then [k] else [] := by
  induction l with
  | nil => simp
  | cons i l ih =>
    obtain ⟨hi, hln⟩ := List.nodup_cons.mp hl
    by_cases hik : i = k
    · subst hik
      have hfl : l.filter (fun j => j == i) = [] := by
        rw [List.filter_eq_nil_iff]
        intro a ha
        simp only [beq_iff_eq]
        intro hai
        exact hi (hai ▸ ha)
      simp [List.filter_cons, hfl]
    · have hb : (i == k) = false := by simp [hik]
      rw [List.filter_cons]
      rw [hb]
      simp only [Bool.false_eq_true, if_false]
      rw [ih hln]
      by_cases hkl : k ∈ l
      · rw [if_pos hkl, if_pos (List.mem_cons_of_mem i hkl)]
      · rw [if_neg hkl, if_neg ?hnm]
        case hnm =>
          intro hm
          exact hkl ((List.mem_cons.mp hm).resolve_left (Ne.symm hik))

/-- Folding the conditional null appends of the dynamic-id pass. -/
lemma colGet_foldl_condAppend (ids : List String) :
    ∀ (l : List String), l.Nodup → ∀ (cs : Cols) (k : String),
      colGet (l.foldl (fun acc i => if ids.contains i then acc else dictAppend acc i none) cs) k =
        colGet cs k ++ (if k ∈ l ∧ ids.contains k = false then [none] else []) := by
  intro l
  induction l with
  | nil => intro _ cs k; simp
  | cons i l ih =>
    intro hnd cs k
    obtain ⟨hi, hln⟩ := List.nodup_cons.mp hnd
    simp only [List.foldl_cons]
    by_cases hik : i = k
    · subst hik
      by_cases hc : ids.contains i = true
      · rw [if_pos hc, ih hln cs i]
        have h1 : ¬ (i ∈ l ∧ ids.contains i = false) := by
          rintro ⟨_, hf⟩
          rw [hc] at hf
          exact absurd hf (by simp)
        have h2 : ¬ (i ∈ i :: l ∧ ids.contains i = false) := by
          rintro ⟨_, hf⟩
          rw [hc] at hf
          exact absurd hf (by simp)
        rw [if_neg h1, if_neg h2]
      · have hcf : ids.contains i = false := by
          cases hcc : ids.contains i with
          | true => exact absurd hcc hc
          | false => rfl
        rw [if_neg hc, ih hln (dictAppend cs i none) i, colGet_dictAppend_self]
        have h1 : ¬ (i ∈ l ∧ ids.contains i = false) := fun hand => hi hand.1
        have h2 : i ∈ i :: l ∧ ids.contains i = false := ⟨List.mem_cons_self i l, hcf⟩
        rw [if_neg h1, if_pos h2]
        simp
    · have hne : k ≠ i := Ne.symm hik
      have hmem : (k ∈ i :: l ∧ ids.contains k = false) ↔ (k ∈ l ∧ ids.contains k = false) := by
        constructor
        · rintro ⟨hm, hf⟩
          exact ⟨(List.mem_cons.mp hm).resolve_left hne, hf⟩
        · rintro ⟨hm, hf⟩
          exact ⟨List.mem_cons_of_mem i hm, hf⟩
      by_cases hc : ids.contains i = true
      · rw [if_pos hc, ih hln cs k]
        congr 1
        exact (if_congr hmem rfl rfl).symm
      · rw [if_neg hc, ih hln (dictAppend cs i none) k,
          colGet_dictAppend_ne cs i none k hne]
        congr 1
        exact (if_congr hmem rfl rfl).symm

lemma dynamic_ids_nodup : dynamic_ids.Nodup := by decide

lemma contains_true_iff (l : List String) (k : String) : l.contains k = true ↔ k ∈ l :=
  List.elem_iff

lemma contains_false_iff (l : List String) (k : String) : l.contains k = false ↔ k ∉ l := by
  rw [← Bool.not_eq_true]
  exact not_congr (contains_true_iff l k)

lemma ids_of_nodup (p : Page) : (ids_of p).Nodup :=
  List.Nodup.filter _ p.ids_nodup

/-- The effect of one loop iteration on one column. -/
lemma colGet_cols_after (p : Page) (cs : Cols) (k : String) :
    colGet (cols_after p cs) k =
      (colGet cs k ++ (if k ∈ ids_of p then [scrape_field p k] else [])) ++
        (if k ∈ dynamic_ids ∧ (ids_of p).contains k = false then [none] else []) := by
  unfold cols_after
  rw [colGet_foldl_condAppend (ids_of p) dynamic_ids dynamic_ids_nodup]
  rw [colGet_foldl_dictAppend]
  rw [filter_beq_of_nodup _ (ids_of_nodup p) k]
  by_cases hk : k ∈ ids_of p
  · rw [if_pos hk, if_pos hk]
    simp
  · rw [if_neg hk, if_neg hk]
    simp

/-- The effect of one loop iteration on one column length: exactly one
value is appended for a key that is a matched id or a dynamic id, and
none otherwise. -/
lemma colLen_cols_after (p : Page) (cs : Cols) (k : String) :
    colLen (cols_after p cs) k =
      colLen cs k + (if k ∈ ids_of p ∨ k ∈ dynamic_ids then 1 else 0) := by
  unfold colLen
  rw [colGet_cols_after]
  by_cases h1 : k ∈ ids_of p
  · have hct : (ids_of p).contains k = true := (contains_true_iff _ k).mpr h1
    have h2 : ¬ (k ∈ dynamic_ids ∧ (ids_of p).contains k = false) := by
      rintro ⟨_, hf⟩
      rw [hct] at hf
      exact absurd hf (by simp)
    rw [if_pos h1, if_neg h2, if_pos (Or.inl h1)]
    simp
  · have hcf : (ids_of p).contains k = false := (contains_false_iff _ k).mpr h1
    by_cases h3 : k ∈ dynamic_ids
    · rw [if_neg h1, if_pos ⟨h3, hcf⟩, if_pos (Or.inr h3)]
      simp
    · have h4 : ¬ (k ∈ ids_of p ∨ k ∈ dynamic_ids) := by
        rintro (hh | hh)
        · exact h1 hh
        · exact h3 hh
      rw [if_neg h1, if_neg (fun hand => h3 hand.1), if_neg h4]
      simp

/-! ### Lemmas about one loop iteration -/

/-- With both statuses 200, the iteration succeeds and performs exactly
the dictionary updates of cols_after, overwriting the scalar jur and
roll entries. -/
lemma scrape_item_200 (st : ScrapeState) (jur : Nat) (roll : String) (w : ItemWorld)
    (h1 : w.lookup.status = 200) (h2 : w.fetchResp.status = 200) :
    scrape_item st jur roll w = .ok ⟨some jur, some roll, cols_after w.page st.cols⟩ := by
  unfold scrape_item get_web_uid fetch_html
  rw [if_pos h1, if_pos h2]

/-- Inversion: a successful iteration yields exactly that state. -/
lemma scrape_item_ok_state (st : ScrapeState) (jur : Nat) (roll : String) (w : ItemWorld)
    (st₂ : ScrapeState) (h : scrape_item st jur roll w = .ok st₂) :
    st₂ = ⟨some jur, some roll, cols_after w.page st.cols⟩ := by
  by_cases h1 : w.lookup.status = 200
  · by_cases h2 : w.fetchResp.status = 200
    · rw [scrape_item_200 st jur roll w h1 h2] at h
      exact (Except.ok.inj h).symm
    · unfold scrape_item get_web_uid fetch_html at h
      rw [if_pos h1, if_neg h2] at h
      simp at h
  · unfold scrape_item get_web_uid at h
    rw [if_neg h1] at h
    simp at h

/-- A failing status makes the iteration raise, with an error that does
not depend on the accumulated state. -/
lemma scrape_item_fail (jur : Nat) (roll : String) (w : ItemWorld)
    (h : ¬ (w.lookup.status = 200 ∧ w.fetchResp.status = 200)) :
    ∃ e, ∀ st, scrape_item st jur roll w = .error e := by
  by_cases h1 : w.lookup.status = 200
  · have h2 : w.fetchResp.status ≠ 200 := fun hh => h ⟨h1, hh⟩
    refine ⟨raise_non_200 w.fetchResp.status, fun st => ?_⟩
    unfold scrape_item get_web_uid fetch_html
    rw [if_pos h1, if_neg h2]
  · refine ⟨raise_non_200 w.lookup.status, fun st => ?_⟩
    unfold scrape_item get_web_uid
    rw [if_neg h1]

/-! ### Claim C4 -/

/-- Claim C4: in a successful iteration every dynamic id receives
exactly one recorded value — the extracted value when the id occurs
among the enumerated ids of the page, the null marker when it is absent
— and the key is present in the dictionary afterwards, so every output
row carries at least the dynamic-id vocabulary. -/
theorem dynamic_ids_exactly_one_value (st : ScrapeState) (jur : Nat) (roll : String)
    (w : ItemWorld) (st₂ : ScrapeState) (hok : scrape_item st jur roll w = .ok st₂)
    (d : String) (hd : d ∈ dynamic_ids) :
    colGet st₂.cols d =
      colGet st.cols d ++ [if d ∈ pageIds w.page then scrape_field w.page d else none] ∧
    colLen st₂.cols d = colLen st.cols d + 1 ∧
    (st₂.cols.lookup d).isSome = true := by
  have hst := scrape_item_ok_state st jur roll w st₂ hok
  subst hst
  have hreg : ids_regex_match d = true := by
    simp only [dynamic_ids, List.mem_cons, List.not_mem_nil, or_false] at hd
    rcases hd with rfl | rfl | rfl | rfl | rfl | rfl <;> decide
  have hmemiff : d ∈ ids_of w.page ↔ d ∈ pageIds w.page := by
    unfold ids_of filter_ids
    rw [List.mem_filter]
    simp [hreg]
  have hmain : colGet (cols_after w.page st.cols) d =
      colGet st.cols d ++ [if d ∈ pageIds w.page then scrape_field w.page d else none] := by
    rw [colGet_cols_after]
    by_cases hp : d ∈ pageIds w.page
    · have hin : d ∈ ids_of w.page := hmemiff.mpr hp
      have hct : (ids_of w.page).contains d = true := (contains_true_iff _ d).mpr hin
      have hno : ¬ (d ∈ dynamic_ids ∧ (ids_of w.page).contains d = false) := by
        rintro ⟨_, hf⟩
        rw [hct] at hf
        exact absurd hf (by simp)
      rw [if_pos hin, if_pos hp, if_neg hno]
      simp
    · have hnin : d ∉ ids_of w.page := fun hh => hp (hmemiff.mp hh)
      have hcf : (ids_of w.page).contains d = false := (contains_false_iff _ d).mpr hnin
      rw [if_neg hnin, if_neg hp, if_pos ⟨hd, hcf⟩]
      simp
  refine ⟨hmain, ?_, ?_⟩
  · show (colGet (cols_after w.page st.cols) d).length = colLen st.cols d + 1
    rw [hmain]
    simp [colLen]
  · cases hl : (cols_after w.page st.cols).lookup d with
    | none =>
      exfalso
      have hnil : colGet (cols_after w.page st.cols) d = [] := by
        unfold colGet
        rw [hl]
        rfl
      rw [hmain] at hnil
      simp at hnil
    | some v => rfl

def pageC4 : Page := ⟨[⟨"lblTotalAssessedLand", ["5"]⟩], by decide⟩

def worldC4 : ItemWorld := ⟨⟨200, "ok-u"⟩, ⟨200, "html"⟩, pageC4⟩

/-- Witness for claim C4 on a concrete iteration: the dynamic id absent
from the page receives exactly one null value, the one present receives
its extracted value. -/
theorem dynamic_ids_exactly_one_value_witness :
    colGet (cols_after pageC4 initState.cols) "lblComments" = [none] ∧
    colGet (cols_after pageC4 initState.cols) "lblTotalAssessedLand" = [some "5"] := by
  have h1 := dynamic_ids_exactly_one_value initState 1 "r" worldC4
    ⟨some 1, some "r", cols_after pageC4 initState.cols⟩ rfl "lblComments" (by decide)
  have h2 := dynamic_ids_exactly_one_value initState 1 "r" worldC4
    ⟨some 1, some "r", cols_after pageC4 initState.cols⟩ rfl "lblTotalAssessedLand" (by decide)
  constructor
  · rw [h1.1]
    rfl
  · rw [h2.1]
    rfl

/-! ### Lemmas about the whole batch -/

/-- Number of iterations among the given oracles that touch the column
of k: those whose page carries a matched occurrence of k, plus the
dynamic-id null fills. -/
def countFor (k : String) (ws : List ItemWorld) : Nat :=
  ws.countP (fun w => (ids_of w.page).contains k || dynamic_ids.contains k)

lemma colLen_initState (k : String) : colLen initState.cols k = 0 := rfl

/-- A batch in which every response has status 200 runs to completion,
and each column length is the number of iterations touching it. -/
lemma run_items_all200 : ∀ (items : List ((Nat × String) × ItemWorld)) (st : ScrapeState),
    (∀ it ∈ items, it.2.lookup.status = 200 ∧ it.2.fetchResp.status = 200) →
    ∃ st₂, run_items st items = .ok st₂ ∧
      ∀ k, colLen st₂.cols k = colLen st.cols k + countFor k (items.map Prod.snd) := by
  intro items
  induction items with
  | nil =>
    intro st _
    exact ⟨st, rfl, by simp [countFor]⟩
  | cons it rest ih =>
    intro st hall
    obtain ⟨h1, h2⟩ := hall it (List.mem_cons_self it rest)
    have hstep : step_item st it = .ok ⟨some it.1.1, some it.1.2, cols_after it.2.page st.cols⟩ :=
      scrape_item_200 st it.1.1 it.1.2 it.2 h1 h2
    obtain ⟨st₂, hrun, hlen⟩ := ih ⟨some it.1.1, some it.1.2, cols_after it.2.page st.cols⟩
      (fun q hq => hall q (List.mem_cons_of_mem it hq))
    refine ⟨st₂, ?_, ?_⟩
    · unfold run_items
      rw [hstep]
      exact hrun
    · intro k
      calc colLen st₂.cols k
          = colLen (cols_after it.2.page st.cols) k + countFor k (rest.map Prod.snd) := hlen k
        _ = (colLen st.cols k + (if k ∈ ids_of it.2.page ∨ k ∈ dynamic_ids then 1 else 0)) +
            countFor k (rest.map Prod.snd) := by rw [colLen_cols_after]
        _ = colLen st.cols k + countFor k ((it :: rest).map Prod.snd) := by
            simp only [List.map_cons, countFor, List.countP_cons]
            have hb : ((ids_of it.2.page).contains k || dynamic_ids.contains k) = true ↔
                (k ∈ ids_of it.2.page ∨ k ∈ dynamic_ids) := by
              simp [Bool.or_eq_true, contains_true_iff]
            by_cases hp : k ∈ ids_of it.2.page ∨ k ∈ dynamic_ids
            · rw [if_pos hp, if_pos (hb.mpr hp)]
              omega
            · rw [if_neg hp, if_neg (fun hh => hp (hb.mp hh))]
              omega

lemma lookup_pair_mem : ∀ (cs : Cols) (k : String) (v : List (Option String)),
    cs.lookup k = some v → (k, v) ∈ cs := by
  intro cs
  induction cs with
  | nil =>
    intro k v h
    simp [List.lookup] at h
  | cons hd tl ih =>
    intro k v h
    obtain ⟨k₀, v₀⟩ := hd
    by_cases hk : k = k₀
    · subst hk
      have hb : (k == k) = true := by simp
      simp only [List.lookup, hb] at h
      have hv : v₀ = v := by simpa using h
      rw [← hv]
      exact List.mem_cons_self _ _
    · have hb : (k == k₀) = false := by simp [hk]
      simp only [List.lookup, hb] at h
      exact List.mem_cons_of_mem _ (ih k v h)

lemma colLen_pos_lookup (cs : Cols) (k : String) (h : 0 < colLen cs k) :
    ∃ v, cs.lookup k = some v ∧ v.length = colLen cs k := by
  cases hl : cs.lookup k with
  | none =>
    exfalso
    have hz : colLen cs k = 0 := by
      unfold colLen colGet
      rw [hl]
      rfl
    omega
  | some v =>
    refine ⟨v, rfl, ?_⟩
    unfold colLen colGet
    rw [hl]
    rfl

/-- Two nonempty columns of different lengths make the dataframe
construction raise. -/
lemma to_dataframe_raises (st : ScrapeState) (k₁ k₂ : String)
    (h1 : 0 < colLen st.cols k₁) (h2 : 0 < colLen st.cols k₂)
    (hne : colLen st.cols k₁ ≠ colLen st.cols k₂) :
    ∃ e, to_dataframe st = .error e := by
  obtain ⟨v₁, hl₁, hv₁⟩ := colLen_pos_lookup st.cols k₁ h1
  obtain ⟨v₂, hl₂, hv₂⟩ := colLen_pos_lookup st.cols k₂ h2
  have hm₁ : (k₁, v₁) ∈ st.cols := lookup_pair_mem st.cols k₁ v₁ hl₁
  have hm₂ : (k₂, v₂) ∈ st.cols := lookup_pair_mem st.cols k₂ v₂ hl₂
  cases hc : st.cols with
  | nil =>
    rw [hc] at hm₁
    simp at hm₁
  | cons hd rest =>
    obtain ⟨k₀, v₀⟩ := hd
    simp only [to_dataframe, hc]
    by_cases hall : rest.all (fun q => q.2.length == v₀.length) = true
    · exfalso
      have hlenq : ∀ q ∈ (k₀, v₀) :: rest, (q : String × List (Option String)).2.length = v₀.length := by
        intro q hq
        rcases List.mem_cons.mp hq with rfl | hq2
        · rfl
        · have := List.all_eq_true.mp hall q hq2
          simpa using this
      rw [hc] at hm₁ hm₂
      have e1 : v₁.length = v₀.length := hlenq (k₁, v₁) hm₁
      have e2 : v₂.length = v₀.length := hlenq (k₂, v₂) hm₂
      apply hne
      rw [← hv₁, ← hv₂, e1, e2]
    · rw [if_neg hall]
      exact ⟨_, rfl⟩

/-! ### Claim C10 -/

/-- Claim C10: when every response in the batch succeeds, a
regex-matched id outside the dynamic vocabulary that is present on one
page and absent on another makes the final dataframe construction of
get_bca_data raise (its column is shorter than the dynamic columns),
rather than null-filling the gap. -/
theorem ragged_matched_ids_abort (jurs : List Nat) (rolls : List String)
    (world : List ItemWorld) (x : String)
    (hlenj : jurs.length = world.length) (hlenr : rolls.length = world.length)
    (h200 : ∀ w ∈ world, w.lookup.status = 200 ∧ w.fetchResp.status = 200)
    (hx : ids_regex_match x = true) (hxd : x ∉ dynamic_ids)
    (hpres : ∃ w ∈ world, x ∈ pageIds w.page)
    (habs : ∃ w ∈ world, x ∉ pageIds w.page) :
    ∃ e, get_bca_data jurs rolls world = .error e := by
  have hpairs : ((jurs.zip rolls).zip world).map Prod.snd = world := by
    apply List.map_snd_zip
    rw [List.length_zip, hlenj, hlenr]
    simp
  have hitems : ∀ it ∈ (jurs.zip rolls).zip world,
      it.2.lookup.status = 200 ∧ it.2.fetchResp.status = 200 := by
    intro it hit
    obtain ⟨a, b⟩ := it
    exact h200 b (List.of_mem_zip hit).2
  obtain ⟨st₂, hrun, hlen⟩ := run_items_all200 ((jurs.zip rolls).zip world) initState hitems
  rw [hpairs] at hlen
  have hmemx : ∀ w : ItemWorld, (x ∈ ids_of w.page ↔ x ∈ pageIds w.page) := by
    intro w
    unfold ids_of filter_ids
    rw [List.mem_filter]
    simp [hx]
  have hcx : colLen st₂.cols x = countFor x world := by
    rw [hlen x, colLen_initState]
    omega
  have hcd : colLen st₂.cols "lblTotalAssessedLand" = countFor "lblTotalAssessedLand" world := by
    rw [hlen _, colLen_initState]
    omega
  have hfd : countFor "lblTotalAssessedLand" world = world.length := by
    unfold countFor
    apply List.countP_eq_length.mpr
    intro w _hw
    have hdc : "lblTotalAssessedLand" ∈ dynamic_ids := by decide
    simp only [Bool.or_eq_true]
    exact Or.inr ((contains_true_iff _ _).mpr hdc)
  obtain ⟨w₁, hw₁, hw₁x⟩ := hpres
  obtain ⟨w₂, hw₂, hw₂x⟩ := habs
  have hxpos : 0 < countFor x world := by
    unfold countFor
    apply List.countP_pos_iff.mpr
    refine ⟨w₁, hw₁, ?_⟩
    have hct : (ids_of w₁.page).contains x = true :=
      (contains_true_iff _ _).mpr ((hmemx w₁).mpr hw₁x)
    simp only [Bool.or_eq_true]
    exact Or.inl hct
  have hxlt : countFor x world ≠ world.length := by
    intro heq
    have hall := List.countP_eq_length.mp heq w₂ hw₂
    rw [Bool.or_eq_true] at hall
    rcases hall with hcb | hcb
    · exact hw₂x ((hmemx w₂).mp ((contains_true_iff _ _).mp hcb))
    · exact hxd ((contains_true_iff _ _).mp hcb)
  have hdpos : 0 < world.length := by
    cases world with
    | nil => simp at hw₁
    | cons a l => simp
  have hne : colLen st₂.cols x ≠ colLen st₂.cols "lblTotalAssessedLand" := by
    rw [hcx, hcd, hfd]
    exact hxlt
  obtain ⟨e, he⟩ := to_dataframe_raises st₂ x "lblTotalAssessedLand"
    (by rw [hcx]; exact hxpos) (by rw [hcd, hfd]; exact hdpos) hne
  refine ⟨e, ?_⟩
  unfold get_bca_data
  rw [hrun]
  exact he

def pageXa : Page := ⟨[⟨"lblExtra", ["1"]⟩], by decide⟩

def pageXb : Page := ⟨[], by decide⟩

def worldXa : ItemWorld := ⟨⟨200, "ok-a"⟩, ⟨200, "h"⟩, pageXa⟩

def worldXb : ItemWorld := ⟨⟨200, "ok-b"⟩, ⟨200, "h"⟩, pageXb⟩

/-- Witness for claim C10: a two-item batch where the matched id
lblExtra is present only on the first page; the whole batch errors. -/
theorem ragged_matched_ids_abort_witness :
    ∃ e, get_bca_data [1, 2] ["a", "b"] [worldXa, worldXb] = .error e := by
  have hp : ∀ w ∈ [worldXa, worldXb], w.lookup.status = 200 ∧ w.fetchResp.status = 200 := by
    intro w hw
    rcases List.mem_cons.mp hw with rfl | hw2
    · exact ⟨rfl, rfl⟩
    · rcases List.mem_cons.mp hw2 with rfl | hw3
      · exact ⟨rfl, rfl⟩
      · simp at hw3
  exact ragged_matched_ids_abort [1, 2] ["a", "b"] [worldXa, worldXb] "lblExtra" rfl rfl hp
    (by decide) (by decide)
    ⟨worldXa, by simp, by decide⟩ ⟨worldXb, by simp, by decide⟩

/-! ### Claim C7 -/

/-- After a prefix of all-200 iterations, a failing item aborts the
whole run with an error that does not depend on anything after it. -/
lemma run_items_fail (cur : (Nat × String) × ItemWorld)
    (hcur : ¬ (cur.2.lookup.status = 200 ∧ cur.2.fetchResp.status = 200)) :
    ∀ (pre : List ((Nat × String) × ItemWorld)) (st : ScrapeState),
      (∀ it ∈ pre, it.2.lookup.status = 200 ∧ it.2.fetchResp.status = 200) →
      ∃ e, ∀ post, run_items st (pre ++ cur :: post) = .error e := by
  intro pre
  induction pre with
  | nil =>
    intro st _
    obtain ⟨e, he⟩ := scrape_item_fail cur.1.1 cur.1.2 cur.2 hcur
    refine ⟨e, fun post => ?_⟩
    show run_items st (cur :: post) = .error e
    unfold run_items step_item
    rw [he st]
  | cons q pre ih =>
    intro st hall
    obtain ⟨h1, h2⟩ := hall q (List.mem_cons_self q pre)
    obtain ⟨e, he⟩ := ih ⟨some q.1.1, some q.1.2, cols_after q.2.page st.cols⟩
      (fun it hit => hall it (List.mem_cons_of_mem q hit))
    refine ⟨e, fun post => ?_⟩
    have hstep : step_item st q = .ok ⟨some q.1.1, some q.1.2, cols_after q.2.page st.cols⟩ :=
      scrape_item_200 st q.1.1 q.1.2 q.2 h1 h2
    show run_items st ((q :: pre) ++ cur :: post) = .error e
    rw [List.cons_append]
    unfold run_items
    rw [hstep]
    exact he post

/-- Claim C7: if every item before position k succeeds (both statuses
200) and item k fails in handle resolution or page fetch, the whole
batch raises — no table is returned, so no row for item k or any later
item exists — and the raised error is independent of every oracle entry
after item k: no request beyond item k is consulted. -/
theorem orchestrator_abort_on_failure (jpre jrest : List Nat) (jk : Nat)
    (rpre rrest : List String) (rk : String)
    (wpre wrest : List ItemWorld) (wk : ItemWorld)
    (hj : jpre.length = wpre.length) (hr : rpre.length = wpre.length)
    (hpre : ∀ w ∈ wpre, w.lookup.status = 200 ∧ w.fetchResp.status = 200)
    (hfail : ¬ (wk.lookup.status = 200 ∧ wk.fetchResp.status = 200)) :
    ∃ e, get_bca_data (jpre ++ jk :: jrest) (rpre ++ rk :: rrest) (wpre ++ wk :: wrest) =
        .error e ∧
      ∀ wrest₂, get_bca_data (jpre ++ jk :: jrest) (rpre ++ rk :: rrest) (wpre ++ wk :: wrest₂) =
        .error e := by
  have hzip : ∀ wr : List ItemWorld,
      ((jpre ++ jk :: jrest).zip (rpre ++ rk :: rrest)).zip (wpre ++ wk :: wr) =
        ((jpre.zip rpre).zip wpre) ++ ((jk, rk), wk) :: ((jrest.zip rrest).zip wr) := by
    intro wr
    rw [List.zip_append (by rw [hj, hr])]
    rw [List.zip_cons_cons]
    rw [List.zip_append (by rw [List.length_zip, hj, hr]; simp)]
    rw [List.zip_cons_cons]
  have hpre2 : ∀ it ∈ (jpre.zip rpre).zip wpre,
      it.2.lookup.status = 200 ∧ it.2.fetchResp.status = 200 := by
    intro it hit
    obtain ⟨a, b⟩ := it
    exact hpre b (List.of_mem_zip hit).2
  obtain ⟨e, he⟩ := run_items_fail ((jk, rk), wk) hfail ((jpre.zip rpre).zip wpre) initState hpre2
  refine ⟨e, ?_, ?_⟩
  · unfold get_bca_data
    rw [hzip wrest, he ((jrest.zip rrest).zip wrest)]
  · intro wrest₂
    unfold get_bca_data
    rw [hzip wrest₂, he ((jrest.zip rrest).zip wrest₂)]

def worldBad : ItemWorld := ⟨⟨500, ""⟩, ⟨200, "h"⟩, pageC4⟩

/-- Witness for claim C7: the spec scenario of a five-item batch whose
third item fails in handle resolution; the batch raises, with the same
error whatever comes after item three (here: nothing). -/
theorem orchestrator_abort_on_failure_witness :
    ∃ e, get_bca_data [226, 226, 226, 226, 226] ["r1", "r2", "r3", "r4", "r5"]
        [worldC4, worldC4, worldBad, worldC4, worldC4] = .error e ∧
      get_bca_data [226, 226, 226, 226, 226] ["r1", "r2", "r3", "r4", "r5"]
        [worldC4, worldC4, worldBad] = .error e := by
  have hp : ∀ w ∈ [worldC4, worldC4], w.lookup.status = 200 ∧ w.fetchResp.status = 200 := by
    intro w hw
    rcases List.mem_cons.mp hw with rfl | hw2
    · exact ⟨rfl, rfl⟩
    · rcases List.mem_cons.mp hw2 with rfl | hw3
      · exact ⟨rfl, rfl⟩
      · simp at hw3
  have hf : ¬ (worldBad.lookup.status = 200 ∧ worldBad.fetchResp.status = 200) := by
    intro hand
    exact absurd hand.1 (by decide)
  obtain ⟨e, h1, h2⟩ := orchestrator_abort_on_failure [226, 226] [226, 226] 226
    ["r1", "r2"] ["r4", "r5"] "r3" [worldC4, worldC4] [worldC4, worldC4] worldBad rfl rfl hp hf
  refine ⟨e, by simpa using h1, by simpa using h2 []⟩

/-! ### Claim C1 -/

/-- Claim C1 evaluation: on the two-item input with pairs (1, "a") and
(2, "b") and identical successful pages, the produced table has two
rows, but both its jur and roll cells hold the second pair — the
assignments dict_data["jur"] = jur and dict_data["roll"] = roll
overwrite a scalar each iteration instead of appending, and
pd.DataFrame broadcasts the final scalar over every row — contradicting
the claimed positional matching ([1, 2]). -/
theorem C1_jur_roll_broadcast :
    Except.map (fun t => (t.jurCol, t.rollCol))
        (get_bca_data [1, 2] ["a", "b"] [worldC4, worldC4]) =
      .ok ([2, 2], ["b", "b"]) ∧
    ([2, 2] : List Nat) ≠ [1, 2] := by
  exact ⟨rfl, by decide⟩
